import Mathlib

/-!
A shallow embedding of `src/app.py`, a Streamlit page that converts uploaded
video files to mp3 audio files.

The scratch filesystem is modelled as the list of extant file paths.  The
behaviour of the external moviepy calls on one input file is an explicit
parameter (`MediaOutcome`): the container opens and has an audio track, opens
without one, or one of the three library calls raises.  Fallible filesystem
and session operations return `Except`, mirroring Python exceptions.
-/

deriving instance DecidableEq for Except

namespace App

/-- `os.path.basename` for POSIX paths: the suffix of `p` after the last `'/'`,
computed as the longest slash-free suffix of `p`. -/
def basename (p : String) : String :=
  ⟨(p.data.reverse.takeWhile (fun c => c != '/')).reverse⟩

/-- `os.path.splitext`: split off the extension at the last dot, provided that
dot lies after the last path separator and some non-dot character of the base
name precedes it (so dotfiles such as `.bashrc` carry no extension). -/
def splitext (p : String) : String × String :=
  let r := p.data.reverse
  let afterDot := r.takeWhile (fun c => c != '.' && c != '/')
  match r.drop afterDot.length with
  | '.' :: rest =>
    if (rest.takeWhile (fun c => c != '/')).any (fun c => c != '.') then
      (⟨rest.reverse⟩, ⟨'.' :: afterDot.reverse⟩)
    else (p, "")
  | _ => (p, "")

/-- `os.path.join` for the two-argument POSIX case used in the script. -/
def path_join (d n : String) : String :=
  if n.data.head? = some '/' then n
  else if d = "" then n
  else if d.data.getLast? = some '/' then d ++ n
  else d ++ "/" ++ n

/-- `open(p, "wb")` followed by a write: `p` exists afterwards. -/
def fs_write (p : String) (fs : List String) : List String :=
  if p ∈ fs then fs else fs ++ [p]

/-- `os.remove(p)`: delete `p`, raising `FileNotFoundError` when `p` does not
exist. -/
def os_remove (p : String) (fs : List String) : Except String (List String) :=
  if p ∈ fs then Except.ok (fs.filter (fun q => q != p)) else Except.error "FileNotFoundError"

/-- The sequential `os.remove` loop used by the zip-delivery cleanup
(`for file_path in processed_files: os.remove(file_path)`). -/
def remove_all : List String → List String → Except String (List String)
  | [], fs => Except.ok fs
  | p :: ps, fs =>
    match os_remove p fs with
    | Except.ok fs2 => remove_all ps fs2
    | Except.error e => Except.error e

/-- What the external moviepy calls do on one input file: `VideoFileClip`
succeeds and `.audio` is a clip (`hasAudio`), succeeds with `.audio = None`
(`noAudio`), `VideoFileClip` raises (`openError`), reading `.audio` raises
(`audioAttrError`), or `write_audiofile` raises (`writeError`). -/
inductive MediaOutcome where
  | hasAudio : MediaOutcome
  | noAudio : MediaOutcome
  | openError (e : String) : MediaOutcome
  | audioAttrError (e : String) : MediaOutcome
  | writeError (e : String) : MediaOutcome
deriving DecidableEq

/-- The `st.error` text of the `except` branch of `convert_to_audio`:
`f"Error al procesar el archivo {os.path.basename(video_path)}: {e}"`. -/
def failure_message (video_path e : String) : String :=
  "Error al procesar el archivo " ++ basename video_path ++ ": " ++ e

/-- The underlying error text of a raising outcome. -/
def MediaOutcome.errText : MediaOutcome → String
  | .openError e => e
  | .audioAttrError e => e
  | .writeError e => e
  | .hasAudio => ""
  | .noAudio => ""

/-- Whether the outcome makes one of the library calls raise. -/
def MediaOutcome.isFailure : MediaOutcome → Bool
  | .openError _ => true
  | .audioAttrError _ => true
  | .writeError _ => true
  | .hasAudio => false
  | .noAudio => false

/-- Observable result of one `convert_to_audio` call: the returned boolean,
whether the output file was written, the `st.error` messages emitted, and
which clip resources were acquired and released. -/
structure ConvResult where
  success : Bool
  wroteOutput : Bool
  errors : List String
  videoOpened : Bool
  videoClosed : Bool
  audioOpened : Bool
  audioClosed : Bool
deriving DecidableEq

/-- `convert_to_audio(video_path, output_audio_path)` from `src/app.py`:

* `hasAudio`: the clip opens, `write_audiofile` writes the output,
  `audio_clip.close()` and `video_clip.close()` run, returns `True`;
* `noAudio`: `video_clip.audio` is `None`, so the `if audio_clip:` body is
  skipped (nothing written), `video_clip.close()` runs, returns `True`;
* any raising call lands in `except Exception as e`, which emits one
  `st.error` naming the file and the error text and returns `False` —
  no `close()` runs on that path (there is no `finally` block). -/
def convert_to_audio (video_path : String) (outcome : MediaOutcome) : ConvResult :=
  match outcome with
  | MediaOutcome.hasAudio =>
    { success := true, wroteOutput := true, errors := [],
      videoOpened := true, videoClosed := true, audioOpened := true, audioClosed := true }
  | MediaOutcome.noAudio =>
    { success := true, wroteOutput := false, errors := [],
      videoOpened := true, videoClosed := true, audioOpened := false, audioClosed := false }
  | MediaOutcome.openError e =>
    { success := false, wroteOutput := false, errors := [failure_message video_path e],
      videoOpened := false, videoClosed := false, audioOpened := false, audioClosed := false }
  | MediaOutcome.audioAttrError e =>
    { success := false, wroteOutput := false, errors := [failure_message video_path e],
      videoOpened := true, videoClosed := false, audioOpened := false, audioClosed := false }
  | MediaOutcome.writeError e =>
    { success := false, wroteOutput := false, errors := [failure_message video_path e],
      videoOpened := true, videoClosed := false, audioOpened := true, audioClosed := false }

/-- State threaded through the conversion loop: the scratch filesystem, the
accumulated `output_audio_paths`, and the `st.error` messages shown so far. -/
structure BatchState where
  fs : List String
  outputs : List String
  errors : List String
deriving DecidableEq

/-- `os.path.join(temp_dir, f"{file_name}.mp3")` with
`file_name, _ = os.path.splitext(uploaded_file.name)` and `temp_dir = "temp"`. -/
def output_path (name : String) : String :=
  path_join "temp" ((splitext name).1 ++ ".mp3")

/-- One iteration of the `for uploaded_file in uploaded_files:` loop
(`src/app.py` lines 119–134): write the upload to `temp/<name>`, call
`convert_to_audio`, append the output path to `output_audio_paths` exactly
when the call returned `True`, then `os.remove` the temporary video. -/
def process_one (s : BatchState) (f : String × MediaOutcome) : Except String BatchState :=
  let video_path := path_join "temp" f.1
  let fs1 := fs_write video_path s.fs
  let r := convert_to_audio video_path f.2
  let fs2 := if r.wroteOutput then fs_write (output_path f.1) fs1 else fs1
  let outs := if r.success then s.outputs ++ [output_path f.1] else s.outputs
  match os_remove video_path fs2 with
  | Except.ok fs3 => Except.ok { fs := fs3, outputs := outs, errors := s.errors ++ r.errors }
  | Except.error e => Except.error e

/-- The whole conversion loop, file by file; an uncaught exception aborts it. -/
def run_batch : BatchState → List (String × MediaOutcome) → Except String BatchState
  | s, [] => Except.ok s
  | s, f :: rest =>
    match process_one s f with
    | Except.ok s1 => run_batch s1 rest
    | Except.error e => Except.error e

/-- The session-state keys the script touches.  `processed_files` and
`uploaded_files` mirror `st.session_state['processed_files']` and
`st.session_state['uploaded_files']` (`none` = key absent); `file_uploader`
is the state of the `st.file_uploader` widget, stored under its
`key="file_uploader"` — the script itself never writes an
`'uploaded_files'` key. -/
structure Session where
  processed_files : Option (List String)
  uploaded_files : Option (List String)
  file_uploader : Option (List String)
deriving DecidableEq

/-- `del st.session_state['processed_files']`: raises `KeyError` when absent. -/
def del_processed_files (s : Session) : Except String Session :=
  match s.processed_files with
  | some _ => Except.ok { s with processed_files := none }
  | none => Except.error "KeyError"

/-- `del st.session_state['uploaded_files']`: raises `KeyError` when absent. -/
def del_uploaded_files (s : Session) : Except String Session :=
  match s.uploaded_files with
  | some _ => Except.ok { s with uploaded_files := none }
  | none => Except.error "KeyError"

/-- The `st.success` text shown by `reset_app_state`. -/
def reset_message : String := "¡Listo para empezar de nuevo! Sube nuevos archivos."

/-- Result of `reset_app_state`: the session afterwards, the scratch
filesystem afterwards, the messages shown, and whether `st.rerun` ran. -/
structure ResetResult where
  session : Session
  fs : List String
  messages : List String
  rerun : Bool
deriving DecidableEq

/-- `reset_app_state()` from `src/app.py` (lines 68–80): delete the session
keys `'processed_files'` and `'uploaded_files'`, each guarded by an `in`
check, show the confirmation, and call `st.rerun()`.  The function performs
no filesystem operation, so the scratch filesystem is passed through. -/
def reset_app_state (s : Session) (fs : List String) : Except String ResetResult :=
  match (if s.processed_files.isSome then del_processed_files s else Except.ok s) with
  | Except.error e => Except.error e
  | Except.ok s1 =>
    match (if s1.uploaded_files.isSome then del_uploaded_files s1 else Except.ok s1) with
    | Except.error e => Except.error e
    | Except.ok s2 =>
      Except.ok { session := s2, fs := fs, messages := [reset_message], rerun := true }

/-- What the download section exposes: nothing, a single-file download
button (source path, download filename, MIME type), or a zip-archive
download button (archive name, MIME type, entries as source-path /
entry-name pairs). -/
inductive Delivery where
  | noDownload : Delivery
  | single (srcPath fileName mime : String) : Delivery
  | zipArchive (archiveName mime : String) (entries : List (String × String)) : Delivery
deriving DecidableEq

/-- The download section of `src/app.py` (lines 141–181).  The guard is
`'processed_files' in st.session_state and st.session_state['processed_files']`.
With exactly one path: `open` it (raising if absent), expose it under its
basename with MIME `audio/mpeg`, `os.remove` it, and delete the session key.
Otherwise: `zipfile` reads every path (raising if one is absent), the archive
`audios_convertidos.zip` is exposed with MIME `application/zip` holding one
entry per path named by its basename, every path is removed, and the session
key is deleted.  The first component is what was exposed before any raise; the
second is the resulting filesystem and session, or the propagated error. -/
def render_downloads (s : Session) (fs : List String) :
    Delivery × Except String (List String × Session) :=
  match s.processed_files with
  | none => (Delivery.noDownload, Except.ok (fs, s))
  | some pf =>
    if pf.isEmpty then (Delivery.noDownload, Except.ok (fs, s))
    else if pf.length = 1 then
      let p := pf.headD ""
      if p ∈ fs then
        (Delivery.single p (basename p) "audio/mpeg",
          Except.ok (fs.filter (fun q => q != p), { s with processed_files := none }))
      else (Delivery.noDownload, Except.error "FileNotFoundError")
    else
      if _h : ∀ p ∈ pf, p ∈ fs then
        (Delivery.zipArchive "audios_convertidos.zip" "application/zip"
            (pf.map (fun p => (p, basename p))),
          match remove_all pf fs with
          | Except.ok fs2 => Except.ok (fs2, { s with processed_files := none })
          | Except.error e => Except.error e)
      else (Delivery.noDownload, Except.error "FileNotFoundError")

/-! ### Helper lemmas about the filesystem model -/

theorem mem_fs_write_self (p : String) (fs : List String) : p ∈ fs_write p fs := by
  unfold fs_write
  split
  · assumption
  · simp

theorem mem_fs_write_of_mem (p q : String) (fs : List String) (h : q ∈ fs) :
    q ∈ fs_write p fs := by
  unfold fs_write
  split
  · exact h
  · exact List.mem_append_left _ h

theorem os_remove_of_mem {p : String} {fs : List String} (h : p ∈ fs) :
    os_remove p fs = Except.ok (fs.filter (fun q => q != p)) := by
  simp [os_remove, h]

theorem not_mem_filter_ne_self (p : String) (fs : List String) :
    p ∉ fs.filter (fun q => q != p) := by
  simp [List.mem_filter]

theorem remove_all_subset (ps : List String) :
    ∀ fs fs2, remove_all ps fs = Except.ok fs2 → fs2 ⊆ fs := by
  induction ps with
  | nil =>
    intro fs fs2 h
    cases h
    exact fun x hx => hx
  | cons p ps ih =>
    intro fs fs2 h
    simp only [remove_all] at h
    cases hrem : os_remove p fs with
    | ok g =>
      rw [hrem] at h
      simp only [] at h
      have hg : g ⊆ fs := by
        unfold os_remove at hrem
        split at hrem
        · cases hrem
          exact fun x hx => (List.mem_filter.mp hx).1
        · cases hrem
      exact (ih g fs2 h).trans hg
    | error e =>
      rw [hrem] at h
      cases h

theorem remove_all_not_mem (ps : List String) :
    ∀ fs fs2, remove_all ps fs = Except.ok fs2 → ∀ p ∈ ps, p ∉ fs2 := by
  induction ps with
  | nil =>
    intro fs fs2 _ p hp
    cases hp
  | cons q ps ih =>
    intro fs fs2 h p hp
    simp only [remove_all] at h
    cases hrem : os_remove q fs with
    | ok g =>
      rw [hrem] at h
      simp only [] at h
      rcases List.mem_cons.mp hp with rfl | hp2
      · have hqg : p ∉ g := by
          unfold os_remove at hrem
          split at hrem
          · cases hrem
            exact not_mem_filter_ne_self p fs
          · cases hrem
        exact fun hmem => hqg (remove_all_subset ps g fs2 h hmem)
      · exact ih g fs2 h p hp2
    | error e =>
      rw [hrem] at h
      cases h

/-! ### Helper lemmas about the conversion loop -/

/-- The state actually produced by one loop iteration (no exception occurs,
because the video file was just written before the `os.remove`). -/
def process_one_result (s : BatchState) (f : String × MediaOutcome) : BatchState where
  fs := (if (convert_to_audio (path_join "temp" f.1) f.2).wroteOutput then
      fs_write (output_path f.1) (fs_write (path_join "temp" f.1) s.fs)
    else fs_write (path_join "temp" f.1) s.fs).filter (fun q => q != path_join "temp" f.1)
  outputs := if (convert_to_audio (path_join "temp" f.1) f.2).success then
      s.outputs ++ [output_path f.1] else s.outputs
  errors := s.errors ++ (convert_to_audio (path_join "temp" f.1) f.2).errors

theorem process_one_eq (s : BatchState) (f : String × MediaOutcome) :
    process_one s f = Except.ok (process_one_result s f) := by
  have hv : path_join "temp" f.1 ∈
      (if (convert_to_audio (path_join "temp" f.1) f.2).wroteOutput then
        fs_write (output_path f.1) (fs_write (path_join "temp" f.1) s.fs)
      else fs_write (path_join "temp" f.1) s.fs) := by
    split
    · exact mem_fs_write_of_mem _ _ _ (mem_fs_write_self _ _)
    · exact mem_fs_write_self _ _
  simp only [process_one]
  rw [os_remove_of_mem hv]
  rfl

theorem process_one_spec (s : BatchState) (f : String × MediaOutcome) :
    ∃ s1, process_one s f = Except.ok s1 ∧
      s1.outputs = (if (convert_to_audio (path_join "temp" f.1) f.2).success then
        s.outputs ++ [output_path f.1] else s.outputs) ∧
      s1.errors = s.errors ++ (convert_to_audio (path_join "temp" f.1) f.2).errors ∧
      path_join "temp" f.1 ∉ s1.fs :=
  ⟨process_one_result s f, process_one_eq s f, rfl, rfl, not_mem_filter_ne_self _ _⟩

theorem run_batch_spec (l : List (String × MediaOutcome)) (s : BatchState) :
    ∃ s2, run_batch s l = Except.ok s2 ∧
      (∀ x ∈ s.outputs, x ∈ s2.outputs) ∧
      (∀ x ∈ s.errors, x ∈ s2.errors) ∧
      ∀ f ∈ l,
        ((convert_to_audio (path_join "temp" f.1) f.2).success = true →
          output_path f.1 ∈ s2.outputs) ∧
        ∀ m ∈ (convert_to_audio (path_join "temp" f.1) f.2).errors, m ∈ s2.errors := by
  induction l generalizing s with
  | nil => exact ⟨s, rfl, fun x hx => hx, fun x hx => hx, by simp⟩
  | cons f t ih =>
    obtain ⟨s1, heq, hOuts, hErrs, _⟩ := process_one_spec s f
    obtain ⟨s2, hrun, houts, herrs, hall⟩ := ih s1
    have hs1out : ∀ x ∈ s.outputs, x ∈ s1.outputs := by
      intro x hx
      rw [hOuts]
      split
      · exact List.mem_append_left _ hx
      · exact hx
    refine ⟨s2, ?_, fun x hx => houts x (hs1out x hx),
      fun x hx => herrs x (by rw [hErrs]; exact List.mem_append_left _ hx), ?_⟩
    · simp only [run_batch, heq]
      exact hrun
    · intro g hg
      rcases List.mem_cons.mp hg with rfl | hg2
      · refine ⟨fun hsucc => houts _ ?_, fun m hm => herrs m ?_⟩
        · rw [hOuts, if_pos hsucc]
          simp
        · rw [hErrs]
          exact List.mem_append_right _ hm
      · exact hall g hg2

theorem conv_failure_success (vp : String) (o : MediaOutcome) (ho : o.isFailure = true) :
    (convert_to_audio vp o).success = false := by
  cases o <;> simp_all [MediaOutcome.isFailure, convert_to_audio]

theorem conv_failure_errors (vp : String) (o : MediaOutcome) (ho : o.isFailure = true) :
    (convert_to_audio vp o).errors = [failure_message vp o.errText] := by
  cases o <;> simp_all [MediaOutcome.isFailure, convert_to_audio, MediaOutcome.errText]

/-! ### Claim theorems about the extraction adapter and the batch loop -/

/-- Claim C1 (code bug): a container that opens successfully but has no audio
track makes `convert_to_audio` return `True` (no output file is written), so
the orchestrator appends the output path `temp/a.mp3` to `output_audio_paths`
even though no such file exists on the scratch filesystem — the path IS added
to the list of "successfully produced" outputs, contrary to the silent-skip
the specification describes. -/
theorem c1_no_audio_path_still_added :
    (convert_to_audio "temp/a.mp4" MediaOutcome.noAudio).success = true ∧
    (convert_to_audio "temp/a.mp4" MediaOutcome.noAudio).wroteOutput = false ∧
    run_batch { fs := [], outputs := [], errors := [] } [("a.mp4", MediaOutcome.noAudio)] =
      Except.ok { fs := [], outputs := ["temp/a.mp3"], errors := [] } := by
  exact ⟨rfl, rfl, by decide⟩

/-- Claim C8: each loop iteration ends with `os.remove(video_path)`, so the
temporary input video written for an uploaded file is gone from scratch
storage after the extraction attempt, whatever the media outcome was. -/
theorem c8_temp_input_removed (s : BatchState) (name : String) (o : MediaOutcome) :
    ∃ s1, process_one s (name, o) = Except.ok s1 ∧ path_join "temp" name ∉ s1.fs := by
  obtain ⟨s1, heq, _, _, hmem⟩ := process_one_spec s (name, o)
  exact ⟨s1, heq, hmem⟩

/-- Claim C4: when a library call raises for one file, `convert_to_audio`
returns `False`, the `st.error` message naming the file (by basename) and the
underlying error text is visible at the end of the batch, and every later
file whose own conversion succeeds still contributes its output path — the
batch is never aborted by one file's failure. -/
theorem c4_failure_reported_batch_continues
    (pre post : List (String × MediaOutcome)) (n : String) (o : MediaOutcome)
    (ho : o.isFailure = true) (s : BatchState) :
    (convert_to_audio (path_join "temp" n) o).success = false ∧
    ∃ s2, run_batch s (pre ++ (n, o) :: post) = Except.ok s2 ∧
      failure_message (path_join "temp" n) o.errText ∈ s2.errors ∧
      ∀ f ∈ post, (convert_to_audio (path_join "temp" f.1) f.2).success = true →
        output_path f.1 ∈ s2.outputs := by
  obtain ⟨s2, hrun, _, _, hall⟩ := run_batch_spec (pre ++ (n, o) :: post) s
  refine ⟨conv_failure_success _ o ho, s2, hrun, ?_, ?_⟩
  · have hmem : ((n, o) : String × MediaOutcome) ∈ pre ++ (n, o) :: post :=
      List.mem_append_right _ (List.mem_cons_self _ _)
    have := (hall _ hmem).2
    rw [conv_failure_errors _ o ho] at this
    exact this _ (by simp)
  · intro f hf hsucc
    exact (hall f (List.mem_append_right _ (List.mem_cons_of_mem _ hf))).1 hsucc

/-- Witness for C4 at a concrete failing file followed by a succeeding one. -/
theorem c4_failure_reported_batch_continues_witness :
    (convert_to_audio (path_join "temp" "bad.mp4") (MediaOutcome.openError "boom")).success =
      false :=
  (c4_failure_reported_batch_continues [] [("good.mp4", MediaOutcome.hasAudio)] "bad.mp4"
    (MediaOutcome.openError "boom") rfl { fs := [], outputs := [], errors := [] }).1

/-- Witness for C8-style per-step removal is not needed (no hypotheses), and
claim C5's counterexample: on the path where `write_audiofile` raises, the
`except` branch returns without any `close()`, so both the opened video clip
and the obtained audio clip are leaked. -/
theorem c5_resources_leak_on_error :
    (convert_to_audio "temp/a.mp4" (MediaOutcome.writeError "boom")).success = false ∧
    (convert_to_audio "temp/a.mp4" (MediaOutcome.writeError "boom")).videoOpened = true ∧
    (convert_to_audio "temp/a.mp4" (MediaOutcome.writeError "boom")).videoClosed = false ∧
    (convert_to_audio "temp/a.mp4" (MediaOutcome.writeError "boom")).audioOpened = true ∧
    (convert_to_audio "temp/a.mp4" (MediaOutcome.writeError "boom")).audioClosed = false := by
  decide

/-- Claim C5 as amended: resources are released on every non-raising path
(audio present or missing), but on any raising path nothing is closed — the
`except` branch reports and returns without releasing what was opened. -/
theorem c5_release_only_without_exception (video_path : String) (outcome : MediaOutcome) :
    ((convert_to_audio video_path outcome).success = true →
      (convert_to_audio video_path outcome).videoOpened = true ∧
      (convert_to_audio video_path outcome).videoClosed = true ∧
      (convert_to_audio video_path outcome).audioClosed =
        (convert_to_audio video_path outcome).audioOpened) ∧
    ((convert_to_audio video_path outcome).success = false →
      (convert_to_audio video_path outcome).videoClosed = false ∧
      (convert_to_audio video_path outcome).audioClosed = false) := by
  cases outcome <;> simp [convert_to_audio]

/-- Witness for the amended C5 at concrete outcomes. -/
theorem c5_release_only_without_exception_witness :
    (convert_to_audio "temp/a.mp4" MediaOutcome.noAudio).videoClosed = true ∧
    (convert_to_audio "temp/a.mp4" (MediaOutcome.openError "x")).videoClosed = false :=
  ⟨((c5_release_only_without_exception "temp/a.mp4" MediaOutcome.noAudio).1 rfl).2.1,
    ((c5_release_only_without_exception "temp/a.mp4" (MediaOutcome.openError "x")).2 rfl).1⟩

/-! ### Claim theorems about the reset action -/

theorem reset_app_state_eq (s : Session) (fs : List String) :
    reset_app_state s fs =
      Except.ok ⟨⟨none, none, s.file_uploader⟩, fs, [reset_message], true⟩ := by
  cases s with
  | mk pfs ufs wid =>
    cases pfs <;> cases ufs <;>
      simp [reset_app_state, del_processed_files, del_uploaded_files]

/-- Claim C7 counterexample: with an undelivered artifact `temp/a.mp3` on
scratch storage and referenced by the processed-file set, invoking the reset
action leaves the artifact file on scratch storage — the resulting filesystem
still equals `["temp/a.mp3"]`; `reset_app_state` deletes no files. -/
theorem c7_reset_leaves_artifact_on_disk :
    reset_app_state ⟨some ["temp/a.mp3"], none, none⟩ ["temp/a.mp3"] =
      Except.ok ⟨⟨none, none, none⟩, ["temp/a.mp3"], [reset_message], true⟩ := by
  decide

/-- Claim C7 as amended: reset removes the session references to the
artifacts (the processed-file set) but performs no filesystem operation, so
any artifact files remain on scratch storage unchanged. -/
theorem c7_reset_deletes_no_files (s : Session) (fs : List String) :
    reset_app_state s fs =
      Except.ok ⟨⟨none, none, s.file_uploader⟩, fs, [reset_message], true⟩ :=
  reset_app_state_eq s fs

/-- Claim C9 (code bug): reset deletes the `'processed_files'` key and the
never-populated `'uploaded_files'` key, shows the confirmation and reruns,
but the uploaded files live under the widget key `'file_uploader'`, which
survives — the interface does not return to the empty-upload state. -/
theorem c9_reset_keeps_uploader_state :
    reset_app_state ⟨some ["temp/a.mp3"], none, some ["a.mp4"]⟩ [] =
      Except.ok ⟨⟨none, none, some ["a.mp4"]⟩, [], [reset_message], true⟩ := by
  decide

/-- Claim C10: reset never raises (both `del`s are guarded by an `in` check,
so it succeeds even on a session that never held files), and applying it to
its own result changes nothing: the session and filesystem it produces are a
fixed point. -/
theorem c10_reset_total_and_idempotent (s : Session) (fs : List String) :
    ∃ r : ResetResult, reset_app_state s fs = Except.ok r ∧
      reset_app_state r.session r.fs = Except.ok r := by
  refine ⟨_, reset_app_state_eq s fs, ?_⟩
  rw [reset_app_state_eq]

/-! ### Helper lemmas about paths and basenames -/

theorem takeWhile_stops_at (pr : Char → Bool) (l r : List Char) (c : Char)
    (hl : ∀ x ∈ l, pr x = true) (hc : pr c = false) :
    (l ++ c :: r).takeWhile pr = l := by
  induction l with
  | nil => simp [List.takeWhile_cons, hc]
  | cons a as ih =>
    have ha : pr a = true := hl a (List.mem_cons_self _ _)
    have ih2 := ih (fun x hx => hl x (List.mem_cons_of_mem _ hx))
    simp [List.takeWhile_cons, ha, ih2]

theorem slash_not_mem_basename (p : String) : '/' ∉ (basename p).data := by
  show '/' ∉ (p.data.reverse.takeWhile (fun c => c != '/')).reverse
  intro h
  have h3 := List.mem_takeWhile_imp (List.mem_reverse.mp h)
  simp at h3

theorem basename_append_slash (d b : String) (hb : '/' ∉ b.data) :
    basename (d ++ "/" ++ b) = b := by
  have hrev : (d ++ "/" ++ b).data.reverse = b.data.reverse ++ '/' :: d.data.reverse := by
    rw [String.data_append, String.data_append]
    simp
  have htake : (d ++ "/" ++ b).data.reverse.takeWhile (fun c => c != '/') = b.data.reverse := by
    rw [hrev]
    refine takeWhile_stops_at _ _ _ '/' (fun x hx => ?_) (by decide)
    have hxb : x ∈ b.data := List.mem_reverse.mp hx
    have hne : x ≠ '/' := fun he => hb (he ▸ hxb)
    simpa using hne
  show String.mk ((d ++ "/" ++ b).data.reverse.takeWhile (fun c => c != '/')).reverse = b
  rw [htake, List.reverse_reverse]

theorem render_downloads_zip (s : Session) (fs : List String) (pf : List String)
    (hs : s.processed_files = some pf) (hne : pf.isEmpty = false)
    (hl1 : ¬ pf.length = 1) (hfs : ∀ p ∈ pf, p ∈ fs) :
    (render_downloads s fs).1 =
      Delivery.zipArchive "audios_convertidos.zip" "application/zip"
        (pf.map (fun p => (p, basename p))) := by
  simp [render_downloads, hs, hne, hl1]
  split
  · rfl
  · next hno => exact absurd hfs hno

theorem path_join_temp (b : String) (hb : '/' ∉ b.data) :
    path_join "temp" b = "temp" ++ "/" ++ b := by
  have h1 : ¬ b.data.head? = some '/' := by
    intro hc
    apply hb
    cases hd : b.data with
    | nil => rw [hd] at hc; cases hc
    | cons c cs =>
      rw [hd] at hc
      simp only [List.head?] at hc
      injection hc with hc
      rw [hc]
      exact List.mem_cons_self _ _
  unfold path_join
  rw [if_neg h1, if_neg (by decide), if_neg (by decide)]

/-! ### Claim theorems about the download section -/

/-- Claim C2: with every collected path present on scratch storage, what the
download section exposes is a pure function of the count of collected paths:
count 0 (or no session key) shows nothing, count 1 exposes exactly that file
under its basename with MIME `audio/mpeg`, and count greater than 1 exposes
the single zip archive with MIME `application/zip`; the tie-break is exactly
`count == 1` versus `count > 1`. -/
theorem c2_delivery_shape_pure_function_of_count (s : Session) (fs : List String)
    (hp : ∀ p ∈ s.processed_files.getD [], p ∈ fs) :
    ((s.processed_files.getD []).length = 0 →
      (render_downloads s fs).1 = Delivery.noDownload) ∧
    ((s.processed_files.getD []).length = 1 →
      (render_downloads s fs).1 =
        Delivery.single ((s.processed_files.getD []).headD "")
          (basename ((s.processed_files.getD []).headD "")) "audio/mpeg") ∧
    (1 < (s.processed_files.getD []).length →
      (render_downloads s fs).1 =
        Delivery.zipArchive "audios_convertidos.zip" "application/zip"
          ((s.processed_files.getD []).map (fun p => (p, basename p)))) := by
  cases hpf : s.processed_files with
  | none =>
    refine ⟨fun _ => by simp [render_downloads, hpf], fun h1 => ?_, fun h2 => ?_⟩
    · simp at h1
    · simp at h2
  | some pf =>
    rw [hpf] at hp
    simp only [Option.getD_some] at hp ⊢
    refine ⟨?_, ?_, ?_⟩
    · intro h0
      have he : pf = [] := List.length_eq_zero.mp h0
      subst he
      simp [render_downloads, hpf]
    · intro h1
      obtain ⟨p, rfl⟩ := List.length_eq_one.mp h1
      have hpm : p ∈ fs := hp p (List.mem_cons_self _ _)
      simp [render_downloads, hpf, hpm]
    · intro h2
      have hne : pf.isEmpty = false := by
        cases pf
        · simp at h2
        · rfl
      have hl1 : ¬ pf.length = 1 := by omega
      exact render_downloads_zip s fs pf hpf hne hl1 hp

/-- Witness for C2 at a singleton processed-file set. -/
theorem c2_delivery_shape_pure_function_of_count_witness :
    (render_downloads ⟨some ["temp/a.mp3"], none, none⟩ ["temp/a.mp3"]).1 =
      Delivery.single "temp/a.mp3" "a.mp3" "audio/mpeg" := by
  have h := (c2_delivery_shape_pure_function_of_count ⟨some ["temp/a.mp3"], none, none⟩
    ["temp/a.mp3"] (by decide)).2.1 (by decide)
  exact h.trans (by decide)

theorem zip_entry_names (l : List String) (hl : ∀ b ∈ l, '/' ∉ b.data) :
    ((l.map (fun b => path_join "temp" b)).map (fun p => (p, basename p))).map Prod.snd = l := by
  induction l with
  | nil => rfl
  | cons b t ih =>
    have hbb := hl b (List.mem_cons_self _ _)
    simp only [List.map_cons]
    rw [ih (fun x hx => hl x (List.mem_cons_of_mem _ hx))]
    show basename (path_join "temp" b) :: t = b :: t
    rw [path_join_temp b hbb, basename_append_slash "temp" b hbb]

/-- Claim C3 counterexample: two uploads `a.mp4` and `a.mov`, both with audio
tracks, collect the output path `temp/a.mp3` twice, and the zip archive then
holds two entries with the same name `a.mp3` — the claimed "no duplicate
entry names" fails on collectable output-path lists. -/
theorem c3_duplicate_zip_entries_counterexample :
    run_batch { fs := [], outputs := [], errors := [] }
        [("a.mp4", MediaOutcome.hasAudio), ("a.mov", MediaOutcome.hasAudio)] =
      Except.ok { fs := ["temp/a.mp3"], outputs := ["temp/a.mp3", "temp/a.mp3"], errors := [] } ∧
    (render_downloads ⟨some ["temp/a.mp3", "temp/a.mp3"], none, none⟩ ["temp/a.mp3"]).1 =
      Delivery.zipArchive "audios_convertidos.zip" "application/zip"
        [("temp/a.mp3", "a.mp3"), ("temp/a.mp3", "a.mp3")] ∧
    ¬ (["a.mp3", "a.mp3"] : List String).Nodup := by
  exact ⟨by decide, by decide, by decide⟩

/-- Claim C3 as amended: for more than one collected output path (each of the
orchestrator's form `temp/<base>.mp3`, base slash-free, and present on
scratch storage), the delivered archive is named `audios_convertidos.zip`,
holds exactly `count` entries, each named by the base filename of its output
path (hence no directory entries), and the entry names are pairwise distinct
provided the collected output paths are pairwise distinct. -/
theorem c3_zip_archive_shape (bs : List String) (fs : List String) (s : Session)
    (hs : s.processed_files = some (bs.map (fun b => path_join "temp" b)))
    (hlen : 1 < bs.length)
    (hb : ∀ b ∈ bs, '/' ∉ b.data)
    (hfs : ∀ p ∈ bs.map (fun b => path_join "temp" b), p ∈ fs) :
    (render_downloads s fs).1 =
      Delivery.zipArchive "audios_convertidos.zip" "application/zip"
        ((bs.map (fun b => path_join "temp" b)).map (fun p => (p, basename p))) ∧
    ((bs.map (fun b => path_join "temp" b)).map (fun p => (p, basename p))).length =
      bs.length ∧
    ((bs.map (fun b => path_join "temp" b)).map (fun p => (p, basename p))).map Prod.snd =
      bs ∧
    (∀ en ∈ (bs.map (fun b => path_join "temp" b)).map (fun p => (p, basename p)),
      '/' ∉ en.2.data) ∧
    (bs.Nodup →
      (((bs.map (fun b => path_join "temp" b)).map (fun p => (p, basename p))).map
        Prod.snd).Nodup) := by
  have hnames := zip_entry_names bs hb
  have hne : (bs.map (fun b => path_join "temp" b)).isEmpty = false := by
    cases hbs : bs with
    | nil =>
      rw [hbs] at hlen
      simp at hlen
    | cons x xs => simp
  have hl1 : ¬ (bs.map (fun b => path_join "temp" b)).length = 1 := by
    rw [List.length_map]
    omega
  refine ⟨render_downloads_zip s fs _ hs hne hl1 hfs, ?_, hnames, ?_, ?_⟩
  · rw [List.length_map, List.length_map]
  · intro en hen
    obtain ⟨p, _, rfl⟩ := List.mem_map.mp hen
    exact slash_not_mem_basename p
  · intro hnd
    rw [hnames]
    exact hnd

/-- Witness for the amended C3 at two distinct outputs. -/
theorem c3_zip_archive_shape_witness :
    (render_downloads ⟨some ["temp/a.mp3", "temp/b.mp3"], none, none⟩
        ["temp/a.mp3", "temp/b.mp3"]).1 =
      Delivery.zipArchive "audios_convertidos.zip" "application/zip"
        [("temp/a.mp3", "a.mp3"), ("temp/b.mp3", "b.mp3")] := by
  have h := (c3_zip_archive_shape ["a.mp3", "b.mp3"] ["temp/a.mp3", "temp/b.mp3"]
    ⟨some ["temp/a.mp3", "temp/b.mp3"], none, none⟩ (by decide) (by decide) (by decide)
    (by decide)).1
  exact h.trans (by decide)

/-- Claim C6: whenever the download section exposes a delivery and its file
operations complete without raising, every path referenced by the
processed-file set has been removed from scratch storage and the
`'processed_files'` session key has been deleted. -/
theorem c6_delivery_removes_artifacts_and_clears (s : Session) (fs fs2 : List String)
    (s2 : Session)
    (hdeliv : (render_downloads s fs).1 ≠ Delivery.noDownload)
    (hok : (render_downloads s fs).2 = Except.ok (fs2, s2)) :
    (∀ p ∈ s.processed_files.getD [], p ∉ fs2) ∧ s2.processed_files = none := by
  cases hpf : s.processed_files with
  | none => exact absurd (by simp [render_downloads, hpf]) hdeliv
  | some pf =>
    simp only [Option.getD_some]
    by_cases hemp : pf.isEmpty
    · exact absurd (by simp [render_downloads, hpf, hemp]) hdeliv
    · by_cases h1 : pf.length = 1
      · obtain ⟨p, rfl⟩ := List.length_eq_one.mp h1
        by_cases hpm : p ∈ fs
        · have h2 : (render_downloads s fs).2 =
              Except.ok (fs.filter (fun q => q != p), { s with processed_files := none }) := by
            simp [render_downloads, hpf, hpm]
          rw [h2] at hok
          have hpair := Except.ok.inj hok
          have hfs2 : fs2 = fs.filter (fun q => q != p) := (congrArg Prod.fst hpair).symm
          have hs2 : s2 = { s with processed_files := none } := (congrArg Prod.snd hpair).symm
          refine ⟨?_, by rw [hs2]⟩
          intro q hq
          have hq2 : q = p := by simpa using hq
          subst hq2
          rw [hfs2]
          exact not_mem_filter_ne_self q fs
        · have h2 : (render_downloads s fs).2 = Except.error "FileNotFoundError" := by
            simp [render_downloads, hpf, hpm]
          rw [h2] at hok
          cases hok
      · by_cases hall : ∀ p ∈ pf, p ∈ fs
        · cases hra : remove_all pf fs with
          | ok g =>
            have h2 : (render_downloads s fs).2 =
                Except.ok (g, { s with processed_files := none }) := by
              simp [render_downloads, hpf, hemp, h1, hra]
              split
              · rfl
              · next hno => exact absurd hall hno
            rw [h2] at hok
            have hpair := Except.ok.inj hok
            have hfs2 : fs2 = g := (congrArg Prod.fst hpair).symm
            have hs2 : s2 = { s with processed_files := none } := (congrArg Prod.snd hpair).symm
            refine ⟨?_, by rw [hs2]⟩
            intro q hq
            rw [hfs2]
            exact remove_all_not_mem pf fs g hra q hq
          | error e =>
            have h2 : (render_downloads s fs).2 = Except.error e := by
              simp [render_downloads, hpf, hemp, h1, hra]
              split
              · rfl
              · next hno => exact absurd hall hno
            rw [h2] at hok
            cases hok
        · have h2 : (render_downloads s fs).2 = Except.error "FileNotFoundError" := by
            simp [render_downloads, hpf, hemp, h1, hall]
          rw [h2] at hok
          cases hok

/-- Witness for C6 at a delivered singleton. -/
theorem c6_delivery_removes_artifacts_and_clears_witness :
    ("temp/a.mp3" ∉ ([] : List String)) ∧
    (Session.mk none none none).processed_files = none := by
  have h := c6_delivery_removes_artifacts_and_clears ⟨some ["temp/a.mp3"], none, none⟩
    ["temp/a.mp3"] [] ⟨none, none, none⟩ (by decide) (by decide)
  exact ⟨h.1 "temp/a.mp3" (by decide), h.2⟩

end App
